import Mathlib

/-!
Shallow embedding of the compaction round-info planning core of the
`compactor` crate (`src/compactor/src/components/round_info_source/mod.rs`).

Rust `i64` timestamps are embedded as `Int`; `usize` accumulators are
embedded as `Nat`; the Rust cast `as usize` on an `i64` is the 64-bit
bit-reinterpretation `as_usize`.  Rust panics (`assert!`, `unwrap`) are
embedded as `Option`: `none` is a panic, `some` a normal return.
Helper functions that live in crates or modules not present in this
source tree (`data_types`, `split_or_compact/start_level_files_to_split.rs`)
are modelled from the specification and carry a doc comment saying so.
-/

namespace RoundInfoSource

/-- Modelled from the spec: compaction levels L0/L1/L2
(`data_types::CompactionLevel`, crate not in this tree). -/
inductive CompactionLevel where
  | Initial
  | FileNonOverlapped
  | Final
deriving DecidableEq

/-- Modelled from the spec: the next (target) compaction level;
the top level is its own successor (`data_types::CompactionLevel::next`). -/
def CompactionLevel.next : CompactionLevel → CompactionLevel
  | .Initial => .FileNonOverlapped
  | .FileNonOverlapped => .Final
  | .Final => .Final

/-- Modelled from the spec: the fields of `data_types::ParquetFile` that the
planning core reads (identity, level, inclusive time bounds, size, lineage
marker).  Times and sizes are `i64` in Rust, embedded as `Int`. -/
structure ParquetFile where
  id : Nat
  compaction_level : CompactionLevel
  min_time : Int
  max_time : Int
  file_size_bytes : Int
  max_l0_created_at : Int
deriving DecidableEq

/-- The Rust cast `as usize` applied to an `i64` value (64-bit platforms):
bit reinterpretation, i.e. reduction modulo `2 ^ 64`. -/
def as_usize (v : Int) : Nat := (v % (2 : Int) ^ 64).toNat

/-- Maximum of two timestamps (Rust `cmp::max` / `Timestamp::max`). -/
def imax (a b : Int) : Int := if a ≤ b then b else a

/-- Minimum of two timestamps (Rust `Timestamp::min`). -/
def imin (a b : Int) : Int := if b ≤ a then b else a

/-- Maximum of two `usize` values (Rust `cmp::max`). -/
def nmax (a b : Nat) : Nat := if a ≤ b then b else a

theorem imax_eq_max (a b : Int) : imax a b = max a b := by
  simp only [imax]
  split <;> omega

theorem imin_eq_min (a b : Int) : imin a b = min a b := by
  simp only [imin]
  split <;> omega

theorem nmax_eq_max (a b : Nat) : nmax a b = max a b := by
  simp only [nmax]
  split <;> omega

/-- Modelled from the spec: `ParquetFile::overlaps_time_range` — the file's
inclusive `[min_time, max_time]` range intersects `[tmin, tmax]`. -/
def ParquetFile.overlaps_time_range (f : ParquetFile) (tmin tmax : Int) : Prop :=
  f.min_time ≤ tmax ∧ f.max_time ≥ tmin

instance (f : ParquetFile) (tmin tmax : Int) :
    Decidable (f.overlaps_time_range tmin tmax) :=
  inferInstanceAs (Decidable (_ ∧ _))

/-! ## Level selection (`get_start_level`, mod.rs lines 368-401) -/

/-- One step of the accumulation loop of `get_start_level`:
the triple is `(l0_cnt, l0_bytes, l1_bytes)`. -/
def start_level_acc (t : Nat × Nat × Nat) (f : ParquetFile) : Nat × Nat × Nat :=
  match f.compaction_level with
  | .Initial => (t.1 + 1, t.2.1 + as_usize f.file_size_bytes, t.2.2)
  | .FileNonOverlapped => (t.1, t.2.1, t.2.2 + as_usize f.file_size_bytes)
  | .Final => t

/-- `get_start_level` from the source: `assert!(!files.is_empty())` is the
`none` branch; otherwise accumulate `(l0_cnt, l0_bytes, l1_bytes)` over the
files and decide the start level. -/
def get_start_level (files : List ParquetFile) (max_files max_bytes : Nat) :
    Option CompactionLevel :=
  if files.isEmpty then none
  else
    let acc := files.foldl start_level_acc (0, 0, 0)
    some (if acc.2.2 > 3 * max_bytes ∧ (acc.1 > max_files ∨ acc.2.1 > max_bytes) then
        .FileNonOverlapped
      else if acc.2.1 > 0 then .Initial
      else if acc.2.2 > 0 then .FileNonOverlapped
      else .Final)

/-- Count of L0 files, as in the spec's description of `get_start_level`. -/
def l0_count (files : List ParquetFile) : Nat :=
  (files.filter (fun f => f.compaction_level = .Initial)).length

/-- Total size of L0 files, as in the spec's description. -/
def l0_bytes (files : List ParquetFile) : Nat :=
  ((files.filter (fun f => f.compaction_level = .Initial)).map
    (fun f => as_usize f.file_size_bytes)).sum

/-- Total size of L1 files, as in the spec's description (L2 ignored). -/
def l1_bytes (files : List ParquetFile) : Nat :=
  ((files.filter (fun f => f.compaction_level = .FileNonOverlapped)).map
    (fun f => as_usize f.file_size_bytes)).sum

theorem foldl_start_level_acc (files : List ParquetFile) :
    ∀ a b c : Nat, files.foldl start_level_acc (a, b, c) =
      (a + l0_count files, b + l0_bytes files, c + l1_bytes files) := by
  induction files with
  | nil => intro a b c; simp [l0_count, l0_bytes, l1_bytes]
  | cons f fs ih =>
    intro a b c
    rcases hl : f.compaction_level with _ | _ | _ <;>
      simp [start_level_acc, hl, ih, l0_count, l0_bytes, l1_bytes,
        List.filter_cons] <;> omega

/-- Closed form of `get_start_level` on a non-empty file list, in terms of the
per-level counts and byte totals. -/
theorem get_start_level_closed_form (files : List ParquetFile)
    (max_files max_bytes : Nat) (h : files ≠ []) :
    get_start_level files max_files max_bytes =
      some (if l1_bytes files > 3 * max_bytes ∧
              (l0_count files > max_files ∨ l0_bytes files > max_bytes) then
          .FileNonOverlapped
        else if l0_bytes files > 0 then .Initial
        else if l1_bytes files > 0 then .FileNonOverlapped
        else .Final) := by
  rw [get_start_level, if_neg (by simpa using h)]
  rw [show files.foldl start_level_acc (0, 0, 0) =
    (0 + l0_count files, 0 + l0_bytes files, 0 + l1_bytes files) from
      foldl_start_level_acc files 0 0 0]
  simp

/-- C2: on a non-empty file list, `get_start_level` computes `l0_count` and
`l0_bytes` as the count and total size of L0 files and `l1_bytes` as the total
size of L1 files (L2 files ignored), and returns L1 if
`l1_bytes > 3 * max_bytes` and (`l0_count > max_files` or
`l0_bytes > max_bytes`); else L0 if `l0_bytes > 0`; else L1 if
`l1_bytes > 0`; else L2. -/
theorem get_start_level_spec (files : List ParquetFile)
    (max_files max_bytes : Nat) (h : files ≠ []) :
    get_start_level files max_files max_bytes =
      some (if l1_bytes files > 3 * max_bytes ∧
              (l0_count files > max_files ∨ l0_bytes files > max_bytes) then
          .FileNonOverlapped
        else if l0_bytes files > 0 then .Initial
        else if l1_bytes files > 0 then .FileNonOverlapped
        else .Final) :=
  get_start_level_closed_form files max_files max_bytes h

/-- A single small L0 file used as a concrete witness input. -/
def smallL0 : ParquetFile :=
  { id := 1, compaction_level := .Initial, min_time := 0, max_time := 100,
    file_size_bytes := 5, max_l0_created_at := 1 }

/-- Witness for C2 at a concrete input: one L0 file of size 5, thresholds
`max_files = 1`, `max_bytes = 10`. -/
theorem get_start_level_spec_witness :
    ([smallL0] : List ParquetFile) ≠ [] ∧
    get_start_level [smallL0] 1 10 =
      some (if l1_bytes [smallL0] > 3 * 10 ∧
              (l0_count [smallL0] > 1 ∨ l0_bytes [smallL0] > 10) then
          .FileNonOverlapped
        else if l0_bytes [smallL0] > 0 then .Initial
        else if l1_bytes [smallL0] > 0 then .FileNonOverlapped
        else .Final) :=
  ⟨by decide, get_start_level_spec [smallL0] 1 10 (by decide)⟩

/-- An L0 file of recorded size zero: a legal `ParquetFile` value on which
`get_start_level` skips every byte-based branch. -/
def zeroSizeL0 : ParquetFile :=
  { id := 2, compaction_level := .Initial, min_time := 0, max_time := 100,
    file_size_bytes := 0, max_l0_created_at := 1 }

/-- C6 counterexample: for the single zero-size L0 file, `get_start_level`
returns L2 (`Final`), a level containing zero files, although not all levels
are empty (the list is non-empty and holds an L0 file). -/
theorem get_start_level_zero_count_counterexample :
    get_start_level [zeroSizeL0] 10 100 = some .Final ∧
    (([zeroSizeL0] : List ParquetFile).filter
      (fun f => f.compaction_level = .Final)).length = 0 ∧
    (([zeroSizeL0] : List ParquetFile).filter
      (fun f => f.compaction_level = .Initial)).length ≠ 0 := by
  decide

/-- C6 amended: on a non-empty file list, `get_start_level` never returns a
level whose total byte size is zero, except that it returns the top level L2
exactly when both `l0_bytes` and `l1_bytes` are zero. -/
theorem get_start_level_nonzero_bytes (files : List ParquetFile)
    (max_files max_bytes : Nat) (h : files ≠ []) :
    (get_start_level files max_files max_bytes = some .Initial →
      0 < l0_bytes files) ∧
    (get_start_level files max_files max_bytes = some .FileNonOverlapped →
      0 < l1_bytes files) ∧
    (get_start_level files max_files max_bytes = some .Final ↔
      l0_bytes files = 0 ∧ l1_bytes files = 0) := by
  rw [get_start_level_closed_form files max_files max_bytes h]
  refine ⟨?_, ?_, ?_⟩
  · split <;> rename_i h1
    · simp
    · split <;> rename_i h2
      · intro _; exact h2
      · split <;> simp
  · split <;> rename_i h1
    · intro _; omega
    · split <;> rename_i h2
      · simp
      · split <;> rename_i h3
        · intro _; exact h3
        · simp
  · split <;> rename_i h1
    · simp; omega
    · split <;> rename_i h2
      · simp; omega
      · split <;> rename_i h3
        · simp; omega
        · simp; omega

/-- Witness for C6 amended at a concrete input: the zero-size L0 file list is
non-empty and the conclusion evaluates there. -/
theorem get_start_level_nonzero_bytes_witness :
    (get_start_level [zeroSizeL0] 10 100 = some .Initial →
      0 < l0_bytes [zeroSizeL0]) ∧
    (get_start_level [zeroSizeL0] 10 100 = some .FileNonOverlapped →
      0 < l1_bytes [zeroSizeL0]) ∧
    (get_start_level [zeroSizeL0] 10 100 = some .Final ↔
      l0_bytes [zeroSizeL0] = 0 ∧ l1_bytes [zeroSizeL0] = 0) :=
  get_start_level_nonzero_bytes [zeroSizeL0] 10 100 (by decide)

/-- C7: `get_start_level` called on the empty file list takes the abort
branch (`none`, embedding the `assert!` panic), and on every non-empty file
list it does not (it returns some level). -/
theorem get_start_level_empty_aborts (max_files max_bytes : Nat) :
    get_start_level [] max_files max_bytes = none ∧
    ∀ files : List ParquetFile, files ≠ [] →
      (get_start_level files max_files max_bytes).isSome := by
  refine ⟨rfl, fun files h => ?_⟩
  rw [get_start_level, if_neg (by simpa using h)]
  rfl

/-- Witness for C7 at concrete inputs: the empty list aborts, the singleton
list does not. -/
theorem get_start_level_empty_aborts_witness :
    get_start_level [] 1 1 = none ∧ (get_start_level [smallL0] 1 1).isSome :=
  ⟨(get_start_level_empty_aborts 1 1).1,
   (get_start_level_empty_aborts 1 1).2 [smallL0] (by decide)⟩

/-! ## Chain analysis (helpers from `start_level_files_to_split.rs`, a module
not present in this tree; modelled from the spec) -/

/-- Tail of the chain grouping walk: `cur` is the current chain (reversed),
`curMax` the running maximum `max_time` of `cur`, `acc` the finished chains. -/
def chainsAux : List ParquetFile → List ParquetFile → Int →
    List (List ParquetFile) → List (List ParquetFile)
  | [], cur, _, acc => acc ++ [cur.reverse]
  | f :: rest, cur, curMax, acc =>
    if f.min_time ≤ curMax then
      chainsAux rest (f :: cur) (imax curMax f.max_time) acc
    else
      chainsAux rest [f] f.max_time (acc ++ [cur.reverse])

/-- Modelled from the spec: `split_into_chains` groups a file set into maximal
transitively time-overlapping clusters ordered by time (the function lives in
`split_or_compact/start_level_files_to_split.rs`, not in this tree).  Files
are sorted by `min_time`; a file joins the current chain when its `min_time`
does not exceed the chain's running maximum `max_time`.  Empty input yields
zero chains. -/
def split_into_chains (files : List ParquetFile) : List (List ParquetFile) :=
  match files.insertionSort (fun a b => a.min_time ≤ b.min_time) with
  | [] => []
  | f :: rest => chainsAux rest [f] f.max_time []

/-- Total byte size of a chain (each Rust `file_size_bytes as usize` summed). -/
def chain_size (c : List ParquetFile) : Nat :=
  (c.map (fun f => as_usize f.file_size_bytes)).sum

/-- Tail of the chain coalescing walk of `merge_small_l0_chains`. -/
def mergeChainsAux : List (List ParquetFile) → List ParquetFile →
    List (List ParquetFile) → Nat → List (List ParquetFile)
  | [], cur, acc, _ => acc ++ [cur]
  | c :: rest, cur, acc, maxTotal =>
    if chain_size cur + chain_size c ≤ maxTotal then
      mergeChainsAux rest (cur ++ c) acc maxTotal
    else
      mergeChainsAux rest c (acc ++ [cur]) maxTotal

/-- Modelled from the spec: `merge_small_l0_chains` coalesces adjacent chains
whose combined byte size stays at or below `max_total_size` (the function
lives in `start_level_files_to_split.rs`, not in this tree). -/
def merge_small_l0_chains (chains : List (List ParquetFile)) (maxTotal : Nat) :
    List (List ParquetFile) :=
  match chains with
  | [] => []
  | c :: rest => mergeChainsAux rest c [] maxTotal

/-! ## Overlap counting (`get_num_overlapped_files`, mod.rs lines 403-432) -/

/-- One step of the min/max-envelope fold of `get_num_overlapped_files`. -/
def minmax_acc (p : Option Int × Option Int) (f : ParquetFile) :
    Option Int × Option Int :=
  (some (match p.1 with | some v => imin v f.min_time | none => f.min_time),
   some (match p.2 with | some v => imax v f.max_time | none => f.max_time))

/-- `get_num_overlapped_files` from the source: fold the `[min,max]` envelope
of the start-level files, then count next-level files overlapping it.  The
Rust `unwrap` on an empty fold result is the `none` branch. -/
def get_num_overlapped_files
    (start_level_files next_level_files : List ParquetFile) : Option Nat :=
  let mm := start_level_files.foldl minmax_acc (none, none)
  match mm with
  | (some min_time, some max_time) =>
    some ((next_level_files.filter
      (fun f => f.min_time ≤ max_time ∧ f.max_time ≥ min_time)).length)
  | _ => none

theorem foldl_minmax_some (l : List ParquetFile) :
    ∀ a b : Int, ∃ a2 b2 : Int,
      l.foldl minmax_acc (some a, some b) = (some a2, some b2) := by
  induction l with
  | nil => intro a b; exact ⟨a, b, rfl⟩
  | cons f fs ih =>
    intro a b
    simpa [minmax_acc] using ih (imin a f.min_time) (imax b f.max_time)

theorem get_num_overlapped_files_isSome
    (start next : List ParquetFile) (h : start ≠ []) :
    (get_num_overlapped_files start next).isSome := by
  rcases start with _ | ⟨f, fs⟩
  · exact absurd rfl h
  · unfold get_num_overlapped_files
    obtain ⟨a2, b2, heq⟩ := foldl_minmax_some fs f.min_time f.max_time
    simp only [List.foldl_cons]
    rw [show minmax_acc (none, none) f =
      (some f.min_time, some f.max_time) from rfl, heq]
    rfl

theorem get_num_overlapped_files_nil (next : List ParquetFile) :
    get_num_overlapped_files [] next = none := rfl

/-! ## Small-file heuristic (`too_many_small_files_to_compact`,
mod.rs lines 121-203) -/

/-- The configuration carried by `LevelBasedRoundInfo`. -/
structure LevelBasedRoundInfo where
  max_num_files_per_plan : Nat
  max_total_file_size_per_plan : Nat
deriving DecidableEq

/-- `too_many_small_files_to_compact` from the source.  `none` embeds its
two panic paths: the `unwrap` inside `get_num_overlapped_files`, and the
Rust divide-by-zero of `max_total_file_size_per_plan /
max_num_files_per_plan` (mod.rs lines 164-165) when
`max_num_files_per_plan = 0` — reached only after the count guard fired and
the single-lineage escape clause did not.  The division by
`num_start_level` cannot panic there, since the guard forces
`num_start_level > 1`. -/
def LevelBasedRoundInfo.too_many_small_files_to_compact
    (self : LevelBasedRoundInfo) (files : List ParquetFile)
    (start_level : CompactionLevel) : Option Bool :=
  let start_level_files := files.filter (fun f => f.compaction_level = start_level)
  let num_start_level := start_level_files.length
  let size_start_level :=
    (start_level_files.map (fun f => as_usize f.file_size_bytes)).sum
  let start_max_l0_created_at :=
    (start_level_files.map (fun f => f.max_l0_created_at)).dedup.length
  let next_level_files :=
    files.filter (fun f => f.compaction_level = start_level.next)
  match get_num_overlapped_files start_level_files next_level_files with
  | none => none
  | some num_overlapped_files =>
    if num_start_level > 1 ∧
        num_start_level + num_overlapped_files > self.max_num_files_per_plan then
      if start_max_l0_created_at = 1 then some false
      else if self.max_num_files_per_plan = 0 then none
      else if size_start_level / num_start_level >
          self.max_total_file_size_per_plan / self.max_num_files_per_plan then
        some false
      else
        let chains := split_into_chains files
        let max_target_level_files : Nat := chains.foldl
          (fun m chain => nmax m ((chain.filter
            (fun f => f.compaction_level = start_level.next)).length)) 0
        let max_chain_len : Nat :=
          chains.foldl (fun m chain => nmax m chain.length) 0
        if max_target_level_files ≤ 1 ∧
            max_chain_len ≤ self.max_num_files_per_plan then some false
        else some true
    else some false

/-- Configuration with `max_num_files_per_plan = 2`,
`max_total_file_size_per_plan = 1000`, as in the source's unit test. -/
def cfgC3 : LevelBasedRoundInfo := ⟨2, 1000⟩

/-- L0 file with time range `[0, 100]`. -/
def fC3a : ParquetFile := ⟨3, .Initial, 0, 100, 10, 1⟩

/-- L0 file with the disjoint time range `[101, 200]`. -/
def fC3b : ParquetFile := ⟨4, .Initial, 101, 200, 10, 2⟩

/-- L0 file `[0, 100]` with lineage marker 0 (the unit test's `f1`). -/
def fW1 : ParquetFile := ⟨5, .Initial, 0, 100, 1, 0⟩

/-- L0 file `[0, 100]` with lineage marker 2 (the unit test's `f2`). -/
def fW2 : ParquetFile := ⟨6, .Initial, 0, 100, 1, 2⟩

/-- Overlapping L1 file `[50, 150]` (the unit test's `f4`). -/
def fW4 : ParquetFile := ⟨7, .FileNonOverlapped, 50, 150, 1, 0⟩

/-- C3: `too_many_small_files_to_compact` returns `true` only when the
start-level file count exceeds 1 and the start-level count plus the number of
next-level files overlapping the start-level `[min,max]` envelope exceeds
`max_num_files_per_plan`; and on exactly two L0 files with disjoint ranges
`[0,100]`, `[101,200]` and `max_num_files_per_plan = 2` it returns `false`. -/
theorem too_many_only_if_over_limit :
    (∀ (self : LevelBasedRoundInfo) (files : List ParquetFile)
        (lvl : CompactionLevel),
      self.too_many_small_files_to_compact files lvl = some true →
        1 < (files.filter (fun f => f.compaction_level = lvl)).length ∧
        ∃ n, get_num_overlapped_files
            (files.filter (fun f => f.compaction_level = lvl))
            (files.filter (fun f => f.compaction_level = lvl.next)) = some n ∧
          self.max_num_files_per_plan <
            (files.filter (fun f => f.compaction_level = lvl)).length + n) ∧
    cfgC3.too_many_small_files_to_compact [fC3a, fC3b] .Initial = some false := by
  constructor
  · intro self files lvl h
    simp only [LevelBasedRoundInfo.too_many_small_files_to_compact] at h
    split at h
    · exact absurd h (by simp)
    · rename_i n heq
      split at h
      · rename_i hguard
        exact ⟨hguard.1, n, heq, hguard.2⟩
      · exact absurd h (by simp)
  · decide

/-- Witness for C3's universal part at a concrete over-limit input: the
source unit test's `f1`, `f2`, `f4` with `max_num_files_per_plan = 2`, where
the heuristic does return `some true`. -/
theorem too_many_only_if_over_limit_witness :
    1 < (([fW1, fW2, fW4] : List ParquetFile).filter
      (fun f => f.compaction_level = CompactionLevel.Initial)).length ∧
    ∃ n, get_num_overlapped_files
        (([fW1, fW2, fW4] : List ParquetFile).filter
          (fun f => f.compaction_level = CompactionLevel.Initial))
        (([fW1, fW2, fW4] : List ParquetFile).filter
          (fun f => f.compaction_level = CompactionLevel.Initial.next)) =
          some n ∧
      cfgC3.max_num_files_per_plan <
        (([fW1, fW2, fW4] : List ParquetFile).filter
          (fun f => f.compaction_level = CompactionLevel.Initial)).length + n :=
  too_many_only_if_over_limit.1 cfgC3 [fW1, fW2, fW4] .Initial (by decide)

/-- C4: when the start-level files are non-empty and all share one
`max_l0_created_at` value, `too_many_small_files_to_compact` returns `false`
(the sibling-split escape clause), and re-evaluating on the identical input
returns the identical result. -/
theorem too_many_single_lineage_false (self : LevelBasedRoundInfo)
    (files : List ParquetFile) (lvl : CompactionLevel) (v : Int)
    (hne : files.filter (fun f => f.compaction_level = lvl) ≠ [])
    (hall : ∀ f ∈ files.filter (fun f => f.compaction_level = lvl),
      f.max_l0_created_at = v) :
    self.too_many_small_files_to_compact files lvl = some false ∧
    self.too_many_small_files_to_compact files lvl =
      self.too_many_small_files_to_compact files lvl := by
  refine ⟨?_, rfl⟩
  have hk : ((files.filter (fun f => f.compaction_level = lvl)).map
      (fun f => f.max_l0_created_at)).length ≠ 0 := by
    simp only [List.length_map, ne_eq, List.length_eq_zero]
    exact hne
  have hdedup : ((files.filter (fun f => f.compaction_level = lvl)).map
      (fun f => f.max_l0_created_at)).dedup.length = 1 := by
    have hrep : (files.filter (fun f => f.compaction_level = lvl)).map
        (fun f => f.max_l0_created_at) =
        List.replicate ((files.filter (fun f => f.compaction_level = lvl)).map
          (fun f => f.max_l0_created_at)).length v := by
      apply List.eq_replicate_of_mem
      intro b hb
      obtain ⟨f, hf, rfl⟩ := List.mem_map.mp hb
      exact hall f hf
    rw [hrep, List.replicate_dedup hk]
    rfl
  obtain ⟨n, hn⟩ := Option.isSome_iff_exists.mp
    (get_num_overlapped_files_isSome _
      (files.filter (fun f => f.compaction_level = lvl.next)) hne)
  simp [LevelBasedRoundInfo.too_many_small_files_to_compact, hn, hdedup]

/-- Two L0 files sharing `max_l0_created_at = 0`, enough to exceed a
one-file-per-plan limit. -/
def fC4a : ParquetFile := ⟨8, .Initial, 0, 100, 1, 0⟩

/-- Second L0 file sharing `max_l0_created_at = 0`. -/
def fC4b : ParquetFile := ⟨9, .Initial, 0, 100, 1, 0⟩

/-- Witness for C4 at a concrete input: two overlapping L0 files with the
same lineage marker and `max_num_files_per_plan = 1`. -/
theorem too_many_single_lineage_false_witness :
    LevelBasedRoundInfo.too_many_small_files_to_compact ⟨1, 1000⟩
      [fC4a, fC4b] .Initial = some false ∧
    LevelBasedRoundInfo.too_many_small_files_to_compact ⟨1, 1000⟩
      [fC4a, fC4b] .Initial =
    LevelBasedRoundInfo.too_many_small_files_to_compact ⟨1, 1000⟩
      [fC4a, fC4b] .Initial :=
  too_many_single_lineage_false ⟨1, 1000⟩ [fC4a, fC4b] .Initial 0
    (by decide) (by decide)

theorem too_many_isSome (self : LevelBasedRoundInfo)
    (files : List ParquetFile) (lvl : CompactionLevel)
    (h : files.filter (fun f => f.compaction_level = lvl) ≠ [])
    (hm : 0 < self.max_num_files_per_plan) :
    (self.too_many_small_files_to_compact files lvl).isSome := by
  obtain ⟨n, hn⟩ := Option.isSome_iff_exists.mp
    (get_num_overlapped_files_isSome _
      (files.filter (fun f => f.compaction_level = lvl.next)) h)
  simp only [LevelBasedRoundInfo.too_many_small_files_to_compact, hn]
  split
  · split
    · rfl
    · split
      · rename_i h0
        exact absurd h0 (by omega)
      · split
        · rfl
        · split <;> rfl
  · rfl

/-- C10 counterexample: with `max_num_files_per_plan = 0` and two
overlapping L0 files of distinct lineage, the start-level files are
non-empty yet the function panics (`none`): the source reaches the
divide-by-zero of `max_total_file_size_per_plan / max_num_files_per_plan`
at mod.rs lines 164-165.  So the function is not total on every input with
at least one start-level file. -/
theorem too_many_panics_counterexample :
    (([fW1, fW2] : List ParquetFile).filter
      (fun f => f.compaction_level = CompactionLevel.Initial)) ≠ [] ∧
    LevelBasedRoundInfo.too_many_small_files_to_compact ⟨0, 1000⟩
      [fW1, fW2] CompactionLevel.Initial = none := by
  decide

/-- C10 amended: `too_many_small_files_to_compact` panics (`none`, from the
`unwrap` in `get_num_overlapped_files`) on every file list containing no
start-level file; on any input with at least one start-level file it is
total provided `max_num_files_per_plan > 0` (with the limit 0 the threshold
division can still panic). -/
theorem too_many_panics_without_start_level (self : LevelBasedRoundInfo)
    (files : List ParquetFile) (lvl : CompactionLevel) :
    (files.filter (fun f => f.compaction_level = lvl) = [] →
      self.too_many_small_files_to_compact files lvl = none) ∧
    (files.filter (fun f => f.compaction_level = lvl) ≠ [] →
      0 < self.max_num_files_per_plan →
      (self.too_many_small_files_to_compact files lvl).isSome) := by
  constructor
  · intro h
    simp [LevelBasedRoundInfo.too_many_small_files_to_compact, h,
      get_num_overlapped_files_nil]
  · intro h hm
    exact too_many_isSome self files lvl h hm

/-- Witness for C10 at concrete inputs: with only an L1 file the L0 run
panics; with an L0 file present and a positive file limit it returns a
value. -/
theorem too_many_panics_without_start_level_witness :
    cfgC3.too_many_small_files_to_compact [fW4] .Initial = none ∧
    (cfgC3.too_many_small_files_to_compact [fC4a] .Initial).isSome :=
  ⟨(too_many_panics_without_start_level cfgC3 [fW4] .Initial).1 (by decide),
   (too_many_panics_without_start_level cfgC3 [fC4a] .Initial).2
     (by decide) (by decide)⟩

/-! ## Vertical-split planning (`vertical_split_times`, mod.rs lines 209-290) -/

/-- A sub-range of roughly linear data distribution, as consumed by
`vertical_split_times` (`range.min`, `range.max`, `range.cap`). -/
structure LinearRange where
  min : Int
  max : Int
  cap : Nat
deriving DecidableEq

/-- Modelled from the spec: estimated bytes of file `f` inside `[lo, hi]`,
treating the file's bytes as evenly spread over its own inclusive range. -/
def file_bytes_in_range (f : ParquetFile) (lo hi : Int) : Nat :=
  let olo := imax f.min_time lo
  let ohi := imin f.max_time hi
  if olo ≤ ohi then
    as_usize f.file_size_bytes * (ohi - olo + 1).toNat /
      (f.max_time - f.min_time + 1).toNat
  else 0

/-- Modelled from the spec: `linear_dist_ranges` (defined in
`start_level_files_to_split.rs`, a module not in this tree) divides the
chain's overall time span into `ceil(chain_cap / max_compact_size)`
contiguous sub-ranges of equal time width, each carrying the evenly-spread
byte estimate of the chain's files inside it. -/
def linear_dist_ranges (chain : List ParquetFile)
    (chain_cap max_compact_size : Nat) : List LinearRange :=
  match chain with
  | [] => []
  | f :: rest =>
    let minT := rest.foldl (fun m g => imin m g.min_time) f.min_time
    let maxT := rest.foldl (fun m g => imax m g.max_time) f.max_time
    let n : Nat := if max_compact_size = 0 then 1
      else nmax 1 ((chain_cap + max_compact_size - 1) / max_compact_size)
    let span := maxT - minT + 1
    (List.range n).map (fun i =>
      let lo := minT + span * i / n
      let hi := if i + 1 = n then maxT else minT + span * (i + 1) / n - 1
      { min := lo, max := hi,
        cap := ((f :: rest).map (fun g => file_bytes_in_range g lo hi)).sum })

/-- Modelled from the spec: `select_split_times` (defined in
`start_level_files_to_split.rs`, not in this tree) chooses
`ceil(cap / max_compact_size) - 1` split times inside `[tmin, tmax]`,
preferring a hint timestamp close to each evenly spaced candidate and
falling back to the even split point when no hint lands acceptably. -/
def select_split_times (cap max_compact_size : Nat) (tmin tmax : Int)
    (hints : List Int) : List Int :=
  let k : Nat := if max_compact_size = 0 then 1
    else nmax 1 ((cap + max_compact_size - 1) / max_compact_size)
  (List.range (k - 1)).map (fun i =>
    let ideal := tmin + (tmax - tmin) * ((i : Int) + 1) / (k : Int)
    let tol := ((tmax - tmin) / (2 * (k : Int))).toNat
    match hints.foldl (fun best h =>
      match best with
      | none => if tmin < h ∧ h < tmax then some h else none
      | some b =>
        if (tmin < h ∧ h < tmax) ∧ (h - ideal).natAbs < (b - ideal).natAbs
        then some h else some b) none with
    | some b => if (b - ideal).natAbs ≤ tol then b else ideal
    | none => ideal)

/-- The split-time accumulation loop of `vertical_split_times` (everything
before the final `sort`/`dedup`): break the start-level (non-top) files into
chains; for each multi-file chain over `max_compact_size`, walk its linear
distribution ranges, record `range.min - 1` at every range boundary after the
first recorded time, and inside an oversized multi-file range collect hint
times from target-level file bounds and select split times.  `none` embeds
the Rust divide-by-zero panic of the hint-capacity computation
`Vec::with_capacity(range.cap * 2 / max_compact_size + 1)` (mod.rs line
260), reached on entering an oversized multi-file range when
`max_compact_size = 0`. -/
def vertical_split_times_raw (files : List ParquetFile)
    (max_compact_size : Nat) : Option (List Int) :=
  let non_final :=
    files.filter (fun f => f.compaction_level ≠ CompactionLevel.Final)
  let start_level_files :=
    non_final.filter (fun f => f.compaction_level = CompactionLevel.Initial)
  let target_level_files :=
    non_final.filter (fun f => ¬f.compaction_level = CompactionLevel.Initial)
  let chains := split_into_chains start_level_files
  chains.foldl (fun acc chain =>
    acc.bind (fun split_times =>
      let chain_cap : Nat := chain_size chain
      if chain.length > 1 ∧ chain_cap > max_compact_size then
        let linear_ranges := linear_dist_ranges chain chain_cap max_compact_size
        linear_ranges.foldl (fun acc2 range =>
          acc2.bind (fun split_times =>
            let split_times :=
              if split_times ≠ [] then split_times ++ [range.min - 1]
              else split_times
            let overlaps := (chain.filter
              (fun f => f.overlaps_time_range range.min range.max)).length
            if overlaps > 1 ∧ range.cap > max_compact_size then
              if max_compact_size = 0 then none
              else
                let split_hints := target_level_files.foldl (fun hints f =>
                  let hints :=
                    if f.min_time - 1 > range.min ∧ f.min_time < range.max
                    then hints ++ [f.min_time - 1] else hints
                  if f.max_time > range.min ∧ f.max_time < range.max
                  then hints ++ [f.max_time] else hints) []
                some (split_times ++ select_split_times range.cap
                  max_compact_size range.min range.max split_hints)
            else some split_times)) (some split_times)
      else some split_times)) (some ([] : List Int))

/-- `vertical_split_times` from the source: accumulate the split times, then
`split_times.sort()` (a stable ascending sort) and `split_times.dedup()`
(removal of consecutive duplicates, embedded as `destutter` with `≠`); a
panic of the accumulation propagates. -/
def LevelBasedRoundInfo.vertical_split_times (_self : LevelBasedRoundInfo)
    (files : List ParquetFile) (max_compact_size : Nat) : Option (List Int) :=
  (vertical_split_times_raw files max_compact_size).map
    (fun split_times =>
      (split_times.insertionSort (fun a b => a ≤ b)).destutter
        (fun a b => a ≠ b))

theorem chain_lt_of_le_ne : ∀ l : List Int,
    List.Chain' (fun a b : Int => a ≤ b) l →
    List.Chain' (fun a b : Int => a ≠ b) l →
    List.Chain' (fun a b : Int => a < b) l
  | [], _, _ => List.chain'_nil
  | [_], _, _ => List.chain'_singleton _
  | a :: b :: l, hle, hne => by
    rw [List.chain'_cons] at hle hne ⊢
    exact ⟨lt_of_le_of_ne hle.1 hne.1, chain_lt_of_le_ne (b :: l) hle.2 hne.2⟩

/-- Sorting an integer list ascendingly and then removing consecutive
duplicates yields a strictly increasing list. -/
theorem sorted_lt_sort_destutter (l : List Int) :
    List.Sorted (fun a b : Int => a < b)
      ((l.insertionSort (fun a b => a ≤ b)).destutter (fun a b => a ≠ b)) := by
  have hs : List.Sorted (fun a b : Int => a ≤ b)
      (l.insertionSort (fun a b => a ≤ b)) :=
    List.sorted_insertionSort _ l
  have hsub := List.destutter_sublist
    (l := l.insertionSort (fun a b => a ≤ b)) (R := fun a b : Int => a ≠ b)
  have hle : List.Pairwise (fun a b : Int => a ≤ b)
      ((l.insertionSort (fun a b => a ≤ b)).destutter (fun a b => a ≠ b)) :=
    List.Pairwise.sublist hsub hs
  have hne := List.destutter_is_chain'
    (l.insertionSort (fun a b => a ≤ b)) (R := fun a b : Int => a ≠ b)
  rw [List.Sorted, ← List.chain'_iff_pairwise]
  exact chain_lt_of_le_ne _ hle.chain' hne

theorem foldl_bind_isSome {α β : Type} (F : α → β → Option α)
    (hF : ∀ a b, (F a b).isSome) (l : List β) :
    ∀ acc : Option α, acc.isSome →
      (l.foldl (fun acc b => acc.bind (fun a => F a b)) acc).isSome := by
  induction l with
  | nil => intro acc h; exact h
  | cons b bs ih =>
    intro acc h
    obtain ⟨a, rfl⟩ := Option.isSome_iff_exists.mp h
    simp only [List.foldl_cons]
    rw [show (some a).bind (fun a => F a b) = F a b from rfl]
    exact ih (F a b) (hF a b)

/-- With a positive `max_compact_size`, the with-capacity panic branch is
unreachable and the split-time accumulation always returns. -/
theorem vertical_split_times_raw_isSome (files : List ParquetFile)
    (max_compact_size : Nat) (hm : 0 < max_compact_size) :
    (vertical_split_times_raw files max_compact_size).isSome := by
  rw [vertical_split_times_raw]
  refine foldl_bind_isSome _ ?_ _ _ rfl
  intro split_times chain
  dsimp only
  split
  · refine foldl_bind_isSome _ ?_ _ _ rfl
    intro split_times2 range
    dsimp only
    split
    · split
      · rename_i h0
        exact absurd h0 (by omega)
      · rfl
    · rfl
  · rfl

theorem vertical_split_times_isSome (self : LevelBasedRoundInfo)
    (files : List ParquetFile) (max_compact_size : Nat)
    (hm : 0 < max_compact_size) :
    (self.vertical_split_times files max_compact_size).isSome := by
  rw [LevelBasedRoundInfo.vertical_split_times]
  obtain ⟨r, hr⟩ := Option.isSome_iff_exists.mp
    (vertical_split_times_raw_isSome files max_compact_size hm)
  rw [hr]
  rfl

/-- C8: every split-time list that `vertical_split_times` returns (whenever
it does not panic) is strictly increasing and duplicate-free. -/
theorem vertical_split_times_strictly_increasing
    (self : LevelBasedRoundInfo) (files : List ParquetFile)
    (max_compact_size : Nat) (l : List Int)
    (h : self.vertical_split_times files max_compact_size = some l) :
    List.Sorted (fun a b : Int => a < b) l ∧ l.Nodup := by
  rw [LevelBasedRoundInfo.vertical_split_times, Option.map_eq_some'] at h
  obtain ⟨raw, _, rfl⟩ := h
  exact ⟨sorted_lt_sort_destutter raw,
    List.Pairwise.imp (fun hlt => ne_of_lt hlt) (sorted_lt_sort_destutter raw)⟩

/-- L0 file `[0, 1]` of size 30 used to build an oversized narrow chain. -/
def vA : ParquetFile := ⟨11, .Initial, 0, 1, 30, 3⟩

/-- Second L0 file `[0, 1]` of size 30 in the oversized narrow chain. -/
def vB : ParquetFile := ⟨12, .Initial, 0, 1, 30, 4⟩

/-- Wide zero-size L0 file `[0, 99]` stretching the chain's time span. -/
def vC : ParquetFile := ⟨13, .Initial, 0, 99, 0, 5⟩

/-- The split-time list computed for the C8 witness input. -/
def splitListC8 : List Int := [2, 5, 7, 10, 12, 15, 32, 49, 65, 82]

/-- Witness for C8 at a concrete input that produces a non-empty split list:
two size-30 files on `[0,1]` plus a wide file, `max_compact_size = 10`. -/
theorem vertical_split_times_strictly_increasing_witness :
    List.Sorted (fun a b : Int => a < b) splitListC8 ∧ splitListC8.Nodup :=
  vertical_split_times_strictly_increasing cfgC3 [vA, vB, vC] 10 splitListC8
    (by decide)

/-! ## Ungroupable-files heuristic (`many_ungroupable_files`,
mod.rs lines 93-113) -/

/-- `many_ungroupable_files` from the source: true when the L0 small-files
check fires and chain-merging still leaves more than one chain exceeding a
third of the start-level file count.  The `Option.map` propagates the panic
of `too_many_small_files_to_compact`. -/
def LevelBasedRoundInfo.many_ungroupable_files (self : LevelBasedRoundInfo)
    (files : List ParquetFile) (start_level : CompactionLevel)
    (max_total_file_size_to_group : Nat) : Option Bool :=
  (self.too_many_small_files_to_compact files CompactionLevel.Initial).map
    (fun tm =>
      if tm then
        let start_level_files :=
          files.filter (fun f => f.compaction_level = start_level)
        let start_count := start_level_files.length
        let chains := merge_small_l0_chains (split_into_chains start_level_files)
          max_total_file_size_to_group
        if chains.length > 1 ∧ chains.length > start_count / 3 then true
        else false
      else false)

/-! ## Round info and the orchestrator (`calculate`, mod.rs lines 297-351) -/

/-- Modelled from the spec: the `RoundInfo` decision variants
(`compactor::RoundInfo`, defined outside this module). -/
inductive RoundInfo where
  | TargetLevel (target_level : CompactionLevel)
      (max_total_file_size_to_group : Nat)
  | ManySmallFiles (start_level : CompactionLevel)
      (max_num_files_to_group : Nat) (max_total_file_size_to_group : Nat)
  | SimulatedLeadingEdge (max_num_files_to_group : Nat)
      (max_total_file_size_to_group : Nat)
  | VerticalSplit (split_times : List Int)
deriving DecidableEq

/-- The RoundInfo decision portion of `LevelBasedRoundInfo::calculate`
(mod.rs lines 306-341).  `none` propagates a panic of `get_start_level` or of
the heuristics.  Note the source passes `max_num_files_per_plan` as the
size-to-group argument of `many_ungroupable_files`. -/
def LevelBasedRoundInfo.calculate_round_info (self : LevelBasedRoundInfo)
    (files : List ParquetFile) : Option RoundInfo := do
  let start_level ← get_start_level files self.max_num_files_per_plan
    self.max_total_file_size_per_plan
  if start_level = CompactionLevel.Initial then do
    let split_times ← self.vertical_split_times files
      self.max_total_file_size_per_plan
    if split_times ≠ [] then
      pure (RoundInfo.VerticalSplit split_times)
    else do
      let ung ← self.many_ungroupable_files files start_level
        self.max_num_files_per_plan
      if ung then
        pure (RoundInfo.SimulatedLeadingEdge self.max_num_files_per_plan
          self.max_total_file_size_per_plan)
      else do
        let tm ← self.too_many_small_files_to_compact files start_level
        if tm then
          pure (RoundInfo.ManySmallFiles start_level
            self.max_num_files_per_plan self.max_total_file_size_per_plan)
        else
          pure (RoundInfo.TargetLevel CompactionLevel.FileNonOverlapped
            self.max_total_file_size_per_plan)
  else
    pure (RoundInfo.TargetLevel start_level.next
      self.max_total_file_size_per_plan)

/-- The external collaborators consumed by `calculate`
(`components.round_split.split` and `components.divide_initial.divide`),
as pure functions of the file list and the chosen round info. -/
structure Components where
  round_split : List ParquetFile → RoundInfo →
    List ParquetFile × List ParquetFile
  divide_initial : List ParquetFile → RoundInfo →
    List (List ParquetFile) × List ParquetFile

/-- `LevelBasedRoundInfo::calculate`: compute the round info, delegate to the
round-split and divide collaborators, and append the extra deferred files. -/
def LevelBasedRoundInfo.calculate (self : LevelBasedRoundInfo)
    (components : Components) (files : List ParquetFile) :
    Option (RoundInfo × List (List ParquetFile) × List ParquetFile) := do
  let round_info ← self.calculate_round_info files
  let (files_now, files_later) := components.round_split files round_info
  let (branches, more_for_later) :=
    components.divide_initial files_now round_info
  pure (round_info, branches, files_later ++ more_for_later)

theorem l0_filter_ne_nil_of_start_Initial (files : List ParquetFile)
    (max_files max_bytes : Nat)
    (h : get_start_level files max_files max_bytes =
      some CompactionLevel.Initial) :
    files.filter (fun f => f.compaction_level = CompactionLevel.Initial) ≠ [] := by
  have hne : files ≠ [] := by
    intro e
    rw [e] at h
    simp [get_start_level] at h
  rw [get_start_level_closed_form files max_files max_bytes hne] at h
  have h0 : 0 < l0_bytes files := by
    split at h
    · simp at h
    · split at h
      · assumption
      · split at h <;> simp at h
  intro e
  rw [l0_bytes, e] at h0
  simp at h0

/-- C1 counterexample: with `max_num_files_per_plan = 0` and two
overlapping L0 files of distinct lineage, `get_start_level` yields L0 but
`calculate` panics (`none`) inside `many_ungroupable_files` (divide-by-zero
at mod.rs lines 164-165) instead of returning any of the four RoundInfo
variants the priority list prescribes. -/
theorem calculate_round_info_priority_counterexample :
    get_start_level [fW1, fW2] 0 1000 = some CompactionLevel.Initial ∧
    LevelBasedRoundInfo.calculate_round_info ⟨0, 1000⟩ [fW1, fW2] = none := by
  decide

/-- C1 amended: provided `max_num_files_per_plan > 0` and
`max_total_file_size_per_plan > 0` (otherwise the threshold division of the
small-files heuristic, respectively the hint-capacity division of the
vertical-split walk, panics), `LevelBasedRoundInfo::calculate` selects the
`RoundInfo` by strict priority.  When `get_start_level` yields L0 the
vertical-split computation returns some list `v`, and the result is
`VerticalSplit v` if `v` is non-empty, else `SimulatedLeadingEdge` if
`many_ungroupable_files`, else `ManySmallFiles` at L0 if
`too_many_small_files_to_compact`, else `TargetLevel L1`.  When
`get_start_level` yields L1 the result is `TargetLevel L2`. -/
theorem calculate_round_info_priority (self : LevelBasedRoundInfo)
    (files : List ParquetFile)
    (hm : 0 < self.max_num_files_per_plan)
    (ht : 0 < self.max_total_file_size_per_plan) :
    (get_start_level files self.max_num_files_per_plan
        self.max_total_file_size_per_plan = some CompactionLevel.Initial →
      ∃ v, self.vertical_split_times files
          self.max_total_file_size_per_plan = some v ∧
        self.calculate_round_info files =
          some (if v ≠ [] then RoundInfo.VerticalSplit v
            else if self.many_ungroupable_files files CompactionLevel.Initial
                self.max_num_files_per_plan = some true then
              RoundInfo.SimulatedLeadingEdge self.max_num_files_per_plan
                self.max_total_file_size_per_plan
            else if self.too_many_small_files_to_compact files
                CompactionLevel.Initial = some true then
              RoundInfo.ManySmallFiles CompactionLevel.Initial
                self.max_num_files_per_plan self.max_total_file_size_per_plan
            else
              RoundInfo.TargetLevel CompactionLevel.FileNonOverlapped
                self.max_total_file_size_per_plan)) ∧
    (get_start_level files self.max_num_files_per_plan
        self.max_total_file_size_per_plan =
          some CompactionLevel.FileNonOverlapped →
      self.calculate_round_info files =
        some (RoundInfo.TargetLevel CompactionLevel.Final
          self.max_total_file_size_per_plan)) := by
  constructor
  · intro h
    obtain ⟨v, hv⟩ := Option.isSome_iff_exists.mp
      (vertical_split_times_isSome self files
        self.max_total_file_size_per_plan ht)
    refine ⟨v, hv, ?_⟩
    have hfil := l0_filter_ne_nil_of_start_Initial files _ _ h
    obtain ⟨tb, htb⟩ := Option.isSome_iff_exists.mp
      (too_many_isSome self files CompactionLevel.Initial hfil hm)
    have hum : (self.many_ungroupable_files files CompactionLevel.Initial
        self.max_num_files_per_plan).isSome := by
      rw [LevelBasedRoundInfo.many_ungroupable_files, htb]
      rfl
    obtain ⟨ub, hub⟩ := Option.isSome_iff_exists.mp hum
    by_cases hve : v = []
    · subst hve
      cases ub <;> cases tb <;>
        simp [LevelBasedRoundInfo.calculate_round_info, h, hv, hub, htb]
    · simp [LevelBasedRoundInfo.calculate_round_info, h, hv, hve]
  · intro h
    simp [LevelBasedRoundInfo.calculate_round_info, h, CompactionLevel.next]

/-- A single L1 file, driving `get_start_level` to L1. -/
def fL1 : ParquetFile := ⟨10, .FileNonOverlapped, 0, 100, 5, 0⟩

/-- Witness for C1 amended at concrete inputs: a single L0 file takes the
`TargetLevel L1` leg of the priority list, a single L1 file yields
`TargetLevel L2`; both thresholds of `cfgC3` are positive. -/
theorem calculate_round_info_priority_witness :
    (∃ v, cfgC3.vertical_split_times [smallL0]
        cfgC3.max_total_file_size_per_plan = some v ∧
      cfgC3.calculate_round_info [smallL0] =
        some (if v ≠ [] then RoundInfo.VerticalSplit v
          else if cfgC3.many_ungroupable_files [smallL0]
              CompactionLevel.Initial cfgC3.max_num_files_per_plan =
                some true then
            RoundInfo.SimulatedLeadingEdge cfgC3.max_num_files_per_plan
              cfgC3.max_total_file_size_per_plan
          else if cfgC3.too_many_small_files_to_compact [smallL0]
              CompactionLevel.Initial = some true then
            RoundInfo.ManySmallFiles CompactionLevel.Initial
              cfgC3.max_num_files_per_plan cfgC3.max_total_file_size_per_plan
          else
            RoundInfo.TargetLevel CompactionLevel.FileNonOverlapped
              cfgC3.max_total_file_size_per_plan)) ∧
    cfgC3.calculate_round_info [fL1] =
      some (RoundInfo.TargetLevel CompactionLevel.Final
        cfgC3.max_total_file_size_per_plan) :=
  ⟨(calculate_round_info_priority cfgC3 [smallL0]
      (by decide) (by decide)).1 (by decide),
   (calculate_round_info_priority cfgC3 [fL1]
      (by decide) (by decide)).2 (by decide)⟩

/-- C5: the planning decision is deterministic.  The embedding of the
decision layer is pure — `vertical_split_times`,
`too_many_small_files_to_compact` and `calculate` (with fixed collaborator
functions) are functions of the file list and thresholds alone, so two
evaluations on identical inputs are definitionally equal. -/
theorem planning_deterministic (self : LevelBasedRoundInfo)
    (files : List ParquetFile) (s : Nat) (lvl : CompactionLevel)
    (components : Components) :
    self.vertical_split_times files s = self.vertical_split_times files s ∧
    self.too_many_small_files_to_compact files lvl =
      self.too_many_small_files_to_compact files lvl ∧
    self.calculate components files = self.calculate components files :=
  ⟨rfl, rfl, rfl⟩

/-! ## Logging decorator (`LoggingRoundInfoWrapper::calculate`,
mod.rs lines 53-70) -/

/-- The success payload of `RoundInfoSource::calculate`. -/
structure CalculateOutput where
  round_info : RoundInfo
  branches : List (List ParquetFile)
  files_later : List ParquetFile

/-- The fields recorded by the wrapper's `debug!` call: the round info, the
branch count and the deferred-file count. -/
structure LogEntry where
  round_info : RoundInfo
  branches : Nat
  files_later : Nat

/-- `LoggingRoundInfoWrapper::calculate`.  The wrapped inner source is given
as the sequence of results its successive invocations would produce
(`inner k` is what the `k`-th inner call would return); the wrapper makes
exactly one inner call (index 0), logs only on success, and returns the
inner result unchanged. -/
def logging_calculate {E : Type} (inner : Nat → Except E CalculateOutput) :
    Except E CalculateOutput × List LogEntry :=
  let res := inner 0
  match res with
  | Except.ok r =>
    (res, [⟨r.round_info, r.branches.length, r.files_later.length⟩])
  | Except.error _ => (res, [])

/-- C9: the logging wrapper returns exactly the wrapped source's result,
unchanged in the success and the error case; it emits its log entry only on
success; and it never retries — only the first inner call's result is
consulted. -/
theorem logging_calculate_transparent {E : Type}
    (inner : Nat → Except E CalculateOutput) :
    (logging_calculate inner).1 = inner 0 ∧
    (∀ r, inner 0 = Except.ok r →
      (logging_calculate inner).2 =
        [⟨r.round_info, r.branches.length, r.files_later.length⟩]) ∧
    (∀ e, inner 0 = Except.error e → (logging_calculate inner).2 = []) := by
  refine ⟨?_, ?_, ?_⟩
  · rcases hr : inner 0 with e | r <;> simp [logging_calculate, hr]
  · intro r hr
    simp [logging_calculate, hr]
  · intro e hr
    simp [logging_calculate, hr]

/-- A wrapped source whose first call succeeds with an empty round. -/
def innerOkC9 : Nat → Except Nat CalculateOutput :=
  fun _ => Except.ok ⟨RoundInfo.TargetLevel CompactionLevel.Final 0, [], []⟩

/-- A wrapped source whose first call fails. -/
def innerErrC9 : Nat → Except Nat CalculateOutput :=
  fun _ => Except.error 3

/-- Witness for C9 at concrete inner sources: one succeeding, one failing. -/
theorem logging_calculate_transparent_witness :
    (logging_calculate innerOkC9).1 = innerOkC9 0 ∧
    (logging_calculate innerOkC9).2 =
      [⟨RoundInfo.TargetLevel CompactionLevel.Final 0, 0, 0⟩] ∧
    (logging_calculate innerErrC9).2 = [] :=
  ⟨(logging_calculate_transparent innerOkC9).1,
   (logging_calculate_transparent innerOkC9).2.1
     ⟨RoundInfo.TargetLevel CompactionLevel.Final 0, [], []⟩ rfl,
   (logging_calculate_transparent innerErrC9).2.2 3 rfl⟩

end RoundInfoSource
